import Mathlib

/-!
Verification of the tolerant schema-normalization engine of the Gallery
repository (src/lib/comments.ts and the entity helpers of
src/components/VideoGallery.tsx) against its natural-language specification.

The embedding models the JSON values produced by JSON.parse as a tree
(no shared references, no undefined-valued properties, no NaN/Infinity
literals -- none of which JSON.parse can produce), JavaScript numbers as
exact rationals together with explicit NaN/Infinity markers, and the
clock/date library (Date.now, Date.prototype.toISOString, Date.parse) as
an explicit environment parameter, since those are external to the
repository.  Operations that can raise a JavaScript exception are modelled
in an Except monad.
-/

set_option maxRecDepth 8000

set_option exponentiation.threshold 1200

/-- A JSON value as produced by JSON.parse: object fields are kept in
enumeration order; JSON.parse output has unique keys per object. -/
inductive Json where
  | null : Json
  | bool (b : Bool) : Json
  | num (q : ℚ) : Json
  | str (s : String) : Json
  | arr (elems : List Json) : Json
  | obj (fields : List (String × Json)) : Json

/-- The result of a JavaScript numeric conversion: NaN, a signed infinity
(sign true = negative), or a finite value modelled as an exact rational.
(The model does not round to binary64; the repository's claims never
depend on rounding, only on finiteness, integrality, sign and bounds.) -/
inductive JsNum where
  | nan : JsNum
  | inf (neg : Bool) : JsNum
  | fin (q : ℚ) : JsNum
deriving DecidableEq

/-- The characters removed by String.prototype.trim and skipped by the
ToNumber / parseFloat grammars (ECMAScript WhiteSpace and LineTerminator). -/
def isJsWhitespace (c : Char) : Bool :=
  c = ' ' || c = '\t' || c = '\n' || c = '\r' ||
  c.val = 11 || c.val = 12 || c.val = 0xA0 || c.val = 0x1680 ||
  (0x2000 ≤ c.val && c.val ≤ 0x200A) ||
  c.val = 0x2028 || c.val = 0x2029 || c.val = 0x202F || c.val = 0x205F ||
  c.val = 0x3000 || c.val = 0xFEFF

/-- Left-trim over a character list. -/
def trimLeftChars : List Char → List Char
  | [] => []
  | c :: cs => if isJsWhitespace c then trimLeftChars cs else c :: cs

/-- JavaScript String.prototype.trim: drop whitespace from both ends. -/
def jsTrim (s : String) : String :=
  String.mk ((trimLeftChars ((trimLeftChars s.data.reverse).reverse)))

/-- Membership test for a character in a string (s.includes of a single
character in the source). -/
def hasChar (s : String) (c : Char) : Bool :=
  s.data.contains c

/-- Scan forward to the character just after the first gt sign, if any.
Used to model one match of the tag-stripping regular expression. -/
def afterGt : List Char → Option (List Char)
  | [] => none
  | c :: cs => if c = '>' then some cs else afterGt cs

/-- One fuel-indexed pass of text.replace over the tag pattern
(lt sign, any run of non-gt characters, gt sign; global, leftmost,
non-overlapping).  Fuel is only a structural-termination device: the list
shrinks at every step, so any fuel above the input length is enough. -/
def stripTagsFuel : Nat → List Char → List Char
  | 0, cs => cs
  | _ + 1, [] => []
  | fuel + 1, c :: cs =>
    if c = '<' then
      match afterGt cs with
      | some rest => stripTagsFuel fuel rest
      | none => c :: stripTagsFuel fuel cs
    else c :: stripTagsFuel fuel cs

/-- text.replace of every tag-like substring by the empty string. -/
def stripTags (s : String) : String :=
  String.mk (stripTagsFuel (s.data.length + 1) s.data)

/-- Decimal digit value of a character, if it is one. -/
def decDigitVal (c : Char) : Option Nat :=
  if '0' ≤ c && c ≤ '9' then some (c.toNat - 48) else none

/-- Hexadecimal digit value of a character, if it is one. -/
def hexDigitVal (c : Char) : Option Nat :=
  if '0' ≤ c && c ≤ '9' then some (c.toNat - 48)
  else if 'a' ≤ c && c ≤ 'f' then some (c.toNat - 87)
  else if 'A' ≤ c && c ≤ 'F' then some (c.toNat - 55)
  else none

/-- Octal digit value of a character, if it is one. -/
def octDigitVal (c : Char) : Option Nat :=
  if '0' ≤ c && c ≤ '7' then some (c.toNat - 48) else none

/-- Binary digit value of a character, if it is one. -/
def binDigitVal (c : Char) : Option Nat :=
  if c = '0' then some 0 else if c = '1' then some 1 else none

/-- Consume a maximal run of digits, returning the accumulated value, the
number of digits consumed, and the rest of the input. -/
def takeDigits (base : Nat) (digitVal : Char → Option Nat) :
    Nat → Nat → List Char → Nat × Nat × List Char
  | acc, n, [] => (acc, n, [])
  | acc, n, c :: cs =>
    match digitVal c with
    | some d => takeDigits base digitVal (acc * base + d) (n + 1) cs
    | none => (acc, n, c :: cs)

/-- Finite binary64 values are bounded by 2^1024; conversions past the
bound overflow to the correspondingly signed infinity. -/
def jsClampFinite (q : ℚ) : JsNum :=
  if ((2 ^ 1024 : ℕ) : ℚ) ≤ q then .inf false
  else if q ≤ -((2 ^ 1024 : ℕ) : ℚ) then .inf true
  else .fin q

/-- Apply a decimal exponent to a mantissa given as an integer fraction
mantNum / mantDen, guarding gigantic literal exponents the way binary64
arithmetic would resolve them (overflow to infinity, underflow to zero)
so that evaluation stays feasible. -/
def applyExponent (mantNum : ℤ) (mantDen : ℕ) (expNeg : Bool) (e : Nat) :
    JsNum :=
  if mantNum = 0 then .fin 0
  else if expNeg then
    if e > 1100 then .fin 0
    else jsClampFinite (mkRat mantNum (mantDen * 10 ^ e))
  else
    if e > 1100 then .inf (mantNum < 0)
    else jsClampFinite (mkRat (mantNum * ((10 ^ e : ℕ) : ℤ)) mantDen)

/-- The characters of the word Infinity. -/
def infinityChars : List Char :=
  ['I', 'n', 'f', 'i', 'n', 'i', 't', 'y']

/-- Parse the body of a StrDecimalLiteral after the optional sign.  The
whole remaining input must be consumed (ToNumber, unlike parseFloat,
rejects trailing garbage).  Returns NaN on failure. -/
def parseDecimalBody (neg : Bool) (cs : List Char) : JsNum :=
  if cs = infinityChars then .inf neg
  else
    let (ip, ni, r1) := takeDigits 10 decDigitVal 0 0 cs
    let (fp, nf, r2) :=
      match r1 with
      | '.' :: r => takeDigits 10 decDigitVal 0 0 r
      | r => (0, 0, r)
    if ni = 0 && nf = 0 then .nan
    else
      let mantNum : ℤ :=
        (if neg then -1 else 1) * ((ip : ℤ) * ((10 ^ nf : ℕ) : ℤ) + (fp : ℤ))
      match r2 with
      | [] => jsClampFinite (mkRat mantNum (10 ^ nf))
      | e :: r3 =>
        if e = 'e' || e = 'E' then
          let (expNeg, r4) :=
            match r3 with
            | '-' :: r => (true, r)
            | '+' :: r => (false, r)
            | r => (false, r)
          let (ev, ne, r5) := takeDigits 10 decDigitVal 0 0 r4
          if ne = 0 || r5 ≠ [] then .nan
          else applyExponent mantNum (10 ^ nf) expNeg ev
        else .nan

/-- ECMAScript ToNumber on a string (the Number function applied to a
string): trim, empty means zero, then either a 0x/0o/0b integer literal
or a fully consumed signed decimal literal; anything else is NaN. -/
def stringToNumber (s : String) : JsNum :=
  match (jsTrim s).data with
  | [] => .fin 0
  | '0' :: x :: rest =>
    if x = 'x' || x = 'X' then
      let (v, n, r) := takeDigits 16 hexDigitVal 0 0 rest
      if n > 0 && r = [] then jsClampFinite (v : ℚ) else .nan
    else if x = 'o' || x = 'O' then
      let (v, n, r) := takeDigits 8 octDigitVal 0 0 rest
      if n > 0 && r = [] then jsClampFinite (v : ℚ) else .nan
    else if x = 'b' || x = 'B' then
      let (v, n, r) := takeDigits 2 binDigitVal 0 0 rest
      if n > 0 && r = [] then jsClampFinite (v : ℚ) else .nan
    else parseDecimalBody false ('0' :: x :: rest)
  | '-' :: rest => parseDecimalBody true rest
  | '+' :: rest => parseDecimalBody false rest
  | cs => parseDecimalBody false cs

/-- Longest valid prefix version of the decimal grammar, for
Number.parseFloat: trailing garbage is ignored, an exponent marker is
only consumed when followed by at least one digit. -/
def parseFloatBody (neg : Bool) (cs : List Char) : JsNum :=
  match cs with
  | 'I' :: 'n' :: 'f' :: 'i' :: 'n' :: 'i' :: 't' :: 'y' :: _ => .inf neg
  | _ =>
    let (ip, ni, r1) := takeDigits 10 decDigitVal 0 0 cs
    let (fp, nf, r2) :=
      match r1 with
      | '.' :: r => takeDigits 10 decDigitVal 0 0 r
      | r => (0, 0, r)
    if ni = 0 && nf = 0 then .nan
    else
      let mantNum : ℤ :=
        (if neg then -1 else 1) * ((ip : ℤ) * ((10 ^ nf : ℕ) : ℤ) + (fp : ℤ))
      match r2 with
      | e :: r3 =>
        if e = 'e' || e = 'E' then
          let (expNeg, r4) :=
            match r3 with
            | '-' :: r => (true, r)
            | '+' :: r => (false, r)
            | r => (false, r)
          let (ev, ne, _) := takeDigits 10 decDigitVal 0 0 r4
          if ne = 0 then jsClampFinite (mkRat mantNum (10 ^ nf))
          else applyExponent mantNum (10 ^ nf) expNeg ev
        else jsClampFinite (mkRat mantNum (10 ^ nf))
      | [] => jsClampFinite (mkRat mantNum (10 ^ nf))

/-- Number.parseFloat: skip leading whitespace, optional sign, then the
longest decimal-literal prefix; NaN when no prefix parses. -/
def jsParseFloat (s : String) : JsNum :=
  match trimLeftChars s.data with
  | '-' :: rest => parseFloatBody true rest
  | '+' :: rest => parseFloatBody false rest
  | cs => parseFloatBody false cs

/-- Digit characters of the fractional expansion of the fraction a / b
with 0 <= a < b, bounded by fuel (binary64 fractions terminate within
1100 digits): repeatedly multiply by ten, emit the integer digit and keep
the remainder. -/
def fracDigitChars : Nat → ℕ → ℕ → List Char
  | 0, _, _ => []
  | fuel + 1, a, b =>
    if a = 0 then []
    else Char.ofNat (48 + 10 * a / b) :: fracDigitChars fuel (10 * a % b) b

/-- JavaScript number-to-string conversion (template-literal
interpolation, Array.prototype.join).  Integers print in decimal;
non-integers print sign, integer part, dot and fractional digits.  (The
exponential notation JavaScript switches to beyond 1e21 is not modelled;
no claim stringifies such values.) -/
def jsNumToString (q : ℚ) : String :=
  if q.den = 1 then toString q.num
  else
    let n := q.num.natAbs
    let sign := if q.num < 0 then "-" else ""
    sign ++ toString (n / q.den) ++ "." ++
      String.mk (fracDigitChars 1100 (n % q.den) q.den)

mutual

/-- JavaScript ToString for a JSON value: null and booleans print their
keywords, arrays join their elements with commas mapping null to the
empty string, plain objects print the default object tag. -/
def jsToString : Json → String
  | .null => "null"
  | .bool true => "true"
  | .bool false => "false"
  | .num q => jsNumToString q
  | .str s => s
  | .obj _ => "[object Object]"
  | .arr xs => String.intercalate "," (jsToStringElems xs)

/-- Element conversions of Array.prototype.join: null becomes the empty
string, everything else goes through ToString. -/
def jsToStringElems : List Json → List String
  | [] => []
  | .null :: xs => "" :: jsToStringElems xs
  | x :: xs => jsToString x :: jsToStringElems xs

end

/-- ECMAScript ToNumber on an arbitrary JSON value (the Number function):
numbers pass through, booleans map to 0/1, null to 0, strings through the
string grammar, arrays and objects by way of their ToPrimitive string. -/
def jsValueToNumber (v : Json) : JsNum :=
  match v with
  | .num q => .fin q
  | .str s => stringToNumber s
  | .bool b => .fin (if b then 1 else 0)
  | .null => .fin 0
  | v => stringToNumber (jsToString v)

/-- JavaScript truthiness of a JSON value. -/
def jsTruthy (v : Json) : Bool :=
  match v with
  | .null => false
  | .bool b => b
  | .num q => q ≠ 0
  | .str s => s ≠ ""
  | .arr _ => true
  | .obj _ => true

/-- Property lookup on an object field list (first occurrence; JSON.parse
objects have unique keys). -/
def lookupField : List (String × Json) → String → Option Json
  | [], _ => none
  | (k, v) :: fs, key => if k = key then some v else lookupField fs key

/-- Property access on an arbitrary JSON value: only objects expose the
string-keyed properties read by this code; everything else yields
undefined for the keys in play. -/
def jsGetProp (v : Json) (key : String) : Option Json :=
  match v with
  | .obj fs => lookupField fs key
  | _ => none

/-- isRecord from the source: truthy, typeof object, not an array --
exactly the plain objects of the JSON model. -/
def jsIsRecord (v : Json) : Bool :=
  match v with
  | .obj _ => true
  | _ => false

/-- Array-index interpretation of a path segment, from valueAtPath:
index = Number(segment); rejected unless Number.isInteger(index) and
0 <= index < len. -/
def jsArrayIndex (seg : String) (len : Nat) : Option Nat :=
  match stringToNumber seg with
  | .fin q =>
    if q.den = 1 ∧ 0 ≤ q.num ∧ q.num < (len : Int) then some q.num.toNat
    else none
  | _ => none

/-- Path Resolver loop: current starts as the source and is undefined
(none) as soon as a step fails; arrays use the numeric-index rule,
records use key lookup, anything else short-circuits to undefined. -/
def valueAtPathAux : Option Json → List String → Option Json
  | cur, [] => cur
  | some (.arr xs), seg :: rest =>
    match jsArrayIndex seg xs.length with
    | some i => valueAtPathAux xs[i]? rest
    | none => none
  | some (.obj fs), seg :: rest => valueAtPathAux (lookupField fs seg) rest
  | _, _ :: _ => none

/-- valueAtPath from src/lib/comments.ts. -/
def valueAtPath (source : Json) (path : List String) : Option Json :=
  valueAtPathAux (some source) path

/-- pickString: first candidate path whose value is a non-blank string
(returned trimmed) or a finite number (stringified); JSON carries no
bigints, so that branch of the source is vacuous here. -/
def pickString (source : Json) : List (List String) → Option String
  | [] => none
  | path :: rest =>
    match valueAtPath source path with
    | some (.str s) =>
      let t := jsTrim s
      if t ≠ "" then some t else pickString source rest
    | some (.num q) => some (jsNumToString q)
    | _ => pickString source rest

/-- pickNumber: finite numbers pass through; strings have commas removed
and go through parseFloat, accepted when finite. -/
def pickNumber (source : Json) : List (List String) → Option ℚ
  | [] => none
  | path :: rest =>
    match valueAtPath source path with
    | some (.num q) => some q
    | some (.str s) =>
      match jsParseFloat (String.mk (s.data.filter (fun c => c ≠ ','))) with
      | .fin q => some q
      | _ => pickNumber source rest
    | _ => pickNumber source rest

/-- The truthy strings of the boolean coercion. -/
def boolTrueWords : List String := ["true", "yes", "1", "y"]

/-- The falsy strings of the boolean coercion. -/
def boolFalseWords : List String := ["false", "no", "0", "n"]

/-- pickBoolean: booleans pass through, trimmed lowercased strings are
matched against the synonym sets, numbers 1/0 map to true/false. -/
def pickBoolean (source : Json) : List (List String) → Option Bool
  | [] => none
  | path :: rest =>
    match valueAtPath source path with
    | some (.bool b) => some b
    | some (.str s) =>
      let w := (jsTrim s).toLower
      if boolTrueWords.contains w then some true
      else if boolFalseWords.contains w then some false
      else pickBoolean source rest
    | some (.num q) =>
      if q = 1 then some true
      else if q = 0 then some false
      else pickBoolean source rest
    | _ => pickBoolean source rest

/-- pickStringFromSources: first source that yields a value wins.
(pickString never returns the empty string, so the truthiness test of the
source coincides with presence.) -/
def pickStringFromSources (sources : List Json) (paths : List (List String)) :
    Option String :=
  match sources with
  | [] => none
  | s :: rest =>
    match pickString s paths with
    | some r => some r
    | none => pickStringFromSources rest paths

/-- pickBooleanFromSources: first non-null result wins (false counts). -/
def pickBooleanFromSources (sources : List Json) (paths : List (List String)) :
    Option Bool :=
  match sources with
  | [] => none
  | s :: rest =>
    match pickBoolean s paths with
    | some r => some r
    | none => pickBooleanFromSources rest paths

/-- Assignment merged[key] = value on an object: replace the first
occurrence of the key in place, or append the key at the end. -/
def setField : List (String × Json) → String → Json → List (String × Json)
  | [], key, v => [(key, v)]
  | (k, w) :: fs, key, v =>
    if k = key then (key, v) :: fs else (k, w) :: setField fs key v

/-- The shouldOverride test of expandCommentEntry, evaluated against the
current accumulating record: override when the key is absent (hasOwn
false; present-with-undefined cannot occur in JSON.parse output), when
the existing value is null, or when the existing value is a blank string
while the nested value is a non-blank string. -/
def shouldOverride (merged : List (String × Json)) (key : String) (nv : Json) :
    Bool :=
  match lookupField merged key with
  | none => true
  | some .null => true
  | some (.str s) =>
    jsTrim s = "" &&
      (match nv with
       | .str t => jsTrim t ≠ ""
       | _ => false)
  | some _ => false

/-- The inner loop of expandCommentEntry: fold the entries of one nested
wrapper record into the accumulating record, key by key, applying the
override rule against the record as updated so far. -/
def applyNested : List (String × Json) → List (String × Json) →
    List (String × Json)
  | merged, [] => merged
  | merged, (k, v) :: rest =>
    applyNested (if shouldOverride merged k v then setField merged k v else merged)
      rest

/-- The wrapper keys flattened by Entry Expansion, in source order. -/
def NESTED_WRAPPER_KEYS : List String :=
  ["node", "comment", "value", "payload", "data"]

/-- One wrapper step of expandCommentEntry: if the current record holds a
record under the wrapper key, flatten it; otherwise leave the record
unchanged.  The nested record is re-read from the current accumulator, so
an earlier wrapper can install the record a later wrapper flattens. -/
def expandStep (merged : List (String × Json)) (key : String) :
    List (String × Json) :=
  match lookupField merged key with
  | some (.obj nested) => applyNested merged nested
  | _ => merged

/-- expandCommentEntry from src/lib/comments.ts: non-records yield no
expansion; records are copied and the wrapper keys are flattened in
fixed order. -/
def expandCommentEntry (entry : Json) : Option (List (String × Json)) :=
  match entry with
  | .obj fs => some (NESTED_WRAPPER_KEYS.foldl expandStep fs)
  | _ => none

/-- The well-known container keys of Collection Discovery, in priority
order. -/
def COMMENT_COLLECTION_KEYS : List String :=
  ["items", "comments", "data", "results", "records", "collection", "list",
   "edges", "nodes", "docs", "entries", "values", "payload", "response",
   "children", "elements", "rows"]

/-- The recursion bound of Collection Discovery. -/
def MAX_COLLECTION_DEPTH : Nat := 4

/-- findFirstArray from src/lib/comments.ts, indexed by remaining depth
budget (the source counts depth upward to the constant cap; fuel is
cap minus depth).  Arrays are returned as-is at any depth; a record with
exhausted budget yields []; otherwise the well-known keys are probed in
priority order and, when none yields a non-empty array, all other keys
are scanned in enumeration order. -/
def findFirstArrayAux : Nat → Json → List Json
  | _, .arr xs => xs
  | 0, _ => []
  | fuel + 1, .obj fs =>
    let fromKnown :=
      COMMENT_COLLECTION_KEYS.foldr
        (fun k acc =>
          let r :=
            match lookupField fs k with
            | some c => findFirstArrayAux fuel c
            | none => []
          if r.isEmpty then acc else r)
        []
    if fromKnown.isEmpty then
      fs.foldr
        (fun kv acc =>
          if COMMENT_COLLECTION_KEYS.contains kv.1 then acc
          else
            let r := findFirstArrayAux fuel kv.2
            if r.isEmpty then acc else r)
        []
    else fromKnown
  | _ + 1, _ => []

/-- findFirstArray from src/lib/comments.ts at the default depth 0. -/
def findFirstArray (v : Json) : List Json :=
  findFirstArrayAux MAX_COLLECTION_DEPTH v

/-- The duplicated findFirstArray of src/components/VideoGallery.tsx:
identical except that it has no fallback scan over unknown keys. -/
def galleryFindFirstArrayAux : Nat → Json → List Json
  | _, .arr xs => xs
  | 0, _ => []
  | fuel + 1, .obj fs =>
    COMMENT_COLLECTION_KEYS.foldr
      (fun k acc =>
        let r :=
          match lookupField fs k with
          | some c => galleryFindFirstArrayAux fuel c
          | none => []
        if r.isEmpty then acc else r)
      []
  | _ + 1, _ => []

/-- The VideoGallery findFirstArray at the default depth 0. -/
def galleryFindFirstArray (v : Json) : List Json :=
  galleryFindFirstArrayAux MAX_COLLECTION_DEPTH v

/-- The nested keys followed by Metadata Harvesting. -/
def METADATA_NESTED_KEYS : List String :=
  ["comments", "data", "results", "collection", "records", "list",
   "pagination", "pageInfo", "page_info", "meta", "metadata", "info",
   "links"]

/-- The child records one visited record contributes to the
breadth-first queue: the record values found under the fixed key set, in
key order. -/
def metadataChildren (fs : List (String × Json)) :
    List (List (String × Json)) :=
  METADATA_NESTED_KEYS.foldr
    (fun k acc =>
      match lookupField fs k with
      | some (.obj gs) => gs :: acc
      | _ => acc)
    []

/-- Level-order unfolding of the breadth-first traversal of
gatherMetadataSources.  On tree-shaped JSON.parse output the
identity-keyed visited set of the source can never fire (every object has
exactly one parent), so the traversal is plain level order; the fuel
argument only bounds the number of levels and any value at least the
nesting depth of the input gives the same output, levels beyond the
deepest one being empty. -/
def metadataLevels : Nat → List (List (String × Json)) →
    List (List (String × Json))
  | 0, _ => []
  | fuel + 1, level =>
    match level with
    | [] => []
    | _ =>
      level ++
        metadataLevels fuel (level.foldr (fun fs acc => metadataChildren fs ++ acc) [])

mutual

/-- Structural size bound used as level fuel for the breadth-first
unfolding; it dominates the record-nesting depth of the value. -/
def jsonFieldCount : Json → Nat
  | .obj fs => fieldListCount fs
  | _ => 0

/-- Companion count over a field list (mutual with jsonFieldCount through
the nested inductive). -/
def fieldListCount : List (String × Json) → Nat
  | [] => 1
  | (_, v) :: fs => 1 + jsonFieldCount v + fieldListCount fs

end

/-- gatherMetadataSources from src/lib/comments.ts: the root record
followed by the records reached breadth-first through the fixed key set. -/
def gatherMetadataSources (v : Json) : List Json :=
  match v with
  | .obj fs => (metadataLevels (fieldListCount fs + 1) [fs]).map Json.obj
  | _ => []

/-- The JavaScript exceptions the modelled code can raise:
Date.prototype.toISOString throws a RangeError on an invalid time value. -/
inductive JsError where
  | rangeError : JsError
deriving DecidableEq

/-- The clock and date library used by the normalizers, external to the
repository: the current time already formatted by toISOString, the
formatter for a clipped epoch value, and Date.parse (none = NaN; a
non-NaN Date.parse result is always a valid clipped time). -/
structure DateEnv where
  nowIso : String
  epochToIso : Int → String
  parseDate : String → Option Int

/-- A concrete date environment for closed evaluations. -/
def trivDateEnv : DateEnv :=
  { nowIso := "1970-01-01T00:00:00.000Z",
    epochToIso := fun _ => "1970-01-01T00:00:00.000Z",
    parseDate := fun _ => none }

/-- TimeClip: a time value is valid only within 8.64e15 milliseconds of
the epoch, and is truncated toward zero; outside the bound the Date is
invalid and toISOString throws. -/
def jsTimeClip (q : ℚ) : Option Int :=
  if q.num.natAbs ≤ 8640000000000000 * q.den then
    some (Int.tdiv q.num (q.den : ℤ))
  else none

/-- The normalized Comment record of the data model. -/
structure VideoComment where
  id : String
  text : String
  creatorHandle : String
  createdBy : String
  createdAt : String
  likes : ℤ
  isBotUser : Bool
deriving DecidableEq

/-- The candidate paths for the comment id, in source order. -/
def COMMENT_ID_PATHS : List (List String) :=
  [["id"], ["_id"], ["commentId"], ["comment_id"], ["commentID"], ["uuid"],
   ["uid"], ["externalId"], ["external_id"], ["nodeId"],
   ["comment", "id"], ["comment", "_id"], ["node", "id"], ["node", "_id"],
   ["value", "id"], ["value", "_id"]]

/-- The candidate paths for the comment text, in source order (the
duplicate meta/text entry is kept as in the source). -/
def COMMENT_TEXT_PATHS : List (List String) :=
  [["text"], ["body"], ["content"], ["message"], ["comment"], ["value"],
   ["bodyHtml"], ["body_html"], ["textHtml"], ["text_html"],
   ["rendered", "text"], ["rendered", "body"], ["commentText"],
   ["comment_text"], ["bodyText"], ["body_text"], ["textContent"],
   ["text_content"], ["payload", "text"], ["payload", "content"],
   ["payload", "body"], ["node", "text"], ["node", "body"],
   ["node", "content"], ["node", "message"], ["comment", "text"],
   ["comment", "body"], ["comment", "content"], ["comment", "message"],
   ["data", "text"], ["data", "content"], ["attributes", "text"],
   ["attributes", "content"], ["attributes", "body"], ["meta", "text"],
   ["meta", "body"], ["meta", "text"]]

/-- The candidate paths for the creator handle, in source order. -/
def COMMENT_HANDLE_PATHS : List (List String) :=
  [["creatorHandle"], ["creator_handle"], ["creator", "handle"],
   ["creator", "username"], ["creator", "name"], ["user", "handle"],
   ["user", "username"], ["user", "name"], ["author", "handle"],
   ["author", "username"], ["author", "name"], ["owner", "handle"],
   ["owner", "username"], ["owner", "name"], ["profile", "handle"],
   ["profile", "username"], ["profile", "name"], ["createdBy", "handle"],
   ["createdBy", "username"], ["created_by", "handle"],
   ["created_by", "username"], ["account", "handle"],
   ["account", "username"], ["account", "name"], ["attributes", "author"],
   ["attributes", "username"]]

/-- The candidate paths for createdBy, in source order. -/
def COMMENT_CREATED_BY_PATHS : List (List String) :=
  [["createdBy"], ["created_by"], ["createdById"], ["creatorId"],
   ["creator_id"], ["userId"], ["user_id"], ["authorId"], ["author_id"],
   ["ownerId"], ["owner_id"], ["profile", "id"], ["creator", "id"],
   ["creator", "_id"], ["user", "id"], ["user", "_id"], ["author", "id"],
   ["author", "_id"], ["comment", "createdBy"], ["comment", "created_by"]]

/-- The candidate paths for createdAt, in source order. -/
def COMMENT_CREATED_AT_PATHS : List (List String) :=
  [["createdAt"], ["created_at"], ["created"], ["createdOn"],
   ["created_on"], ["timestamp"], ["publishedAt"], ["published_at"],
   ["insertedAt"], ["inserted_at"], ["dateCreated"], ["date_created"],
   ["node", "createdAt"], ["node", "created_at"], ["comment", "createdAt"],
   ["comment", "created_at"], ["meta", "createdAt"], ["meta", "created_at"]]

/-- The candidate paths for likes, in source order. -/
def COMMENT_LIKES_PATHS : List (List String) :=
  [["likes"], ["likesCount"], ["likes_count"], ["likesTotal"],
   ["likes", "count"], ["likes", "total"], ["stats", "likes"],
   ["metrics", "likes"], ["interactions", "likes"], ["engagement", "likes"],
   ["node", "likes"], ["comment", "likes"], ["comment", "likesCount"],
   ["meta", "likes"]]

/-- The candidate paths for isBotUser, in source order. -/
def COMMENT_BOT_PATHS : List (List String) :=
  [["isBotUser"], ["isBot"], ["bot"], ["creator", "isBot"],
   ["creator", "isBotUser"], ["user", "isBot"], ["user", "isBotUser"],
   ["author", "isBot"], ["author", "isBotUser"], ["comment", "isBot"],
   ["comment", "isBotUser"]]

/-- The resolved id of normalizeComment: pickString over the id paths,
defaulted to the empty string. -/
def commentIdOf (fs : List (String × Json)) : String :=
  (pickString (.obj fs) COMMENT_ID_PATHS).getD ""

/-- The resolved raw text before HTML stripping: pickString over the text
paths, defaulted to the empty string, then trimmed. -/
def commentRawText (fs : List (String × Json)) : String :=
  jsTrim ((pickString (.obj fs) COMMENT_TEXT_PATHS).getD "")

/-- The final text of normalizeComment: when the trimmed value contains
both a lt and a gt sign, every tag-like substring is removed and the
result re-trimmed. -/
def commentTextOf (fs : List (String × Json)) : String :=
  let t := commentRawText fs
  if hasChar t '<' && hasChar t '>' then jsTrim (stripTags t) else t

/-- The createdAt resolution of normalizeComment: no candidate means the
current time; a candidate whose Number conversion is finite is treated as
epoch milliseconds -- toISOString throws when it is outside the Date
range; otherwise Date.parse is tried, falling back to the current time. -/
def commentCreatedAt (env : DateEnv) (fs : List (String × Json)) :
    Except JsError String :=
  match pickString (.obj fs) COMMENT_CREATED_AT_PATHS with
  | none => .ok env.nowIso
  | some cand =>
    match stringToNumber cand with
    | .fin q =>
      match jsTimeClip q with
      | some t => .ok (env.epochToIso t)
      | none => .error .rangeError
    | _ =>
      match env.parseDate cand with
      | some t => .ok (env.epochToIso t)
      | none => .ok env.nowIso

/-- Math.max(0, Math.round(q)) of the resolved likes value: JavaScript
Math.round rounds half toward positive infinity. -/
def jsRoundClampNonneg (q : ℚ) : ℤ :=
  let r := Int.fdiv (2 * q.num + (q.den : ℤ)) (2 * (q.den : ℤ))
  if r < 0 then 0 else r

/-- The resolved likes of normalizeComment. -/
def commentLikesOf (fs : List (String × Json)) : ℤ :=
  jsRoundClampNonneg ((pickNumber (.obj fs) COMMENT_LIKES_PATHS).getD 0)

/-- normalizeComment from src/lib/comments.ts: expand the entry (the
isRecord fallback of the source is unreachable, expandCommentEntry being
defined exactly on records), reject when the resolved id or text is
empty, then assemble the record; resolving createdAt can throw. -/
def normalizeComment (env : DateEnv) (payload : Json) :
    Except JsError (Option VideoComment) :=
  match expandCommentEntry payload with
  | none => .ok none
  | some fs =>
    if commentIdOf fs = "" ∨ commentTextOf fs = "" then .ok none
    else
      match commentCreatedAt env fs with
      | .error e => .error e
      | .ok iso =>
        .ok (some
          { id := commentIdOf fs
            text := commentTextOf fs
            creatorHandle := (pickString (.obj fs) COMMENT_HANDLE_PATHS).getD "User"
            createdBy := (pickString (.obj fs) COMMENT_CREATED_BY_PATHS).getD ""
            createdAt := iso
            likes := commentLikesOf fs
            isBotUser := (pickBoolean (.obj fs) COMMENT_BOT_PATHS).getD false })

/-- The assembled page shape. -/
structure ParsedCommentsPayload where
  items : List VideoComment
  nextCursor : Option String
  hasMore : Bool
deriving DecidableEq

/-- Sequential mapping of a throwing step over a list, propagating the
first exception, as a JavaScript Array.prototype.map does. -/
def mapNormalize (env : DateEnv) : List Json →
    Except JsError (List (Option VideoComment))
  | [] => .ok []
  | x :: xs =>
    match normalizeComment env x with
    | .error e => .error e
    | .ok y =>
      match mapNormalize env xs with
      | .error e => .error e
      | .ok ys => .ok (y :: ys)

/-- The candidate cursor paths of parseCommentsPayload, in source order. -/
def CURSOR_PATHS : List (List String) :=
  [["nextCursor"], ["next", "cursor"], ["cursor"],
   ["pagination", "nextCursor"], ["pagination", "cursor"],
   ["pagination", "next"], ["pagination", "nextToken"],
   ["pagination", "next_token"], ["pageInfo", "endCursor"],
   ["pageInfo", "end_cursor"], ["meta", "nextCursor"],
   ["meta", "next_cursor"], ["meta", "nextToken"], ["meta", "next_token"],
   ["comments", "nextCursor"], ["comments", "cursor"],
   ["comments", "next", "cursor"], ["comments", "pagination", "nextCursor"],
   ["data", "nextCursor"], ["data", "cursor"],
   ["data", "pagination", "nextCursor"]]

/-- The candidate hasMore paths of parseCommentsPayload, in source order. -/
def HAS_MORE_PATHS : List (List String) :=
  [["hasMore"], ["has_more"], ["hasNext"], ["hasNextPage"],
   ["pagination", "hasMore"], ["pagination", "has_more"],
   ["pagination", "hasNext"], ["pagination", "hasNextPage"],
   ["pageInfo", "hasNextPage"], ["pageInfo", "has_next_page"],
   ["meta", "hasMore"], ["meta", "has_more"], ["meta", "hasNext"],
   ["comments", "hasMore"], ["comments", "has_more"], ["data", "hasMore"],
   ["data", "has_more"]]

/-- The resolved cursor of a payload. -/
def payloadNextCursor (payload : Json) : Option String :=
  pickStringFromSources (gatherMetadataSources payload) CURSOR_PATHS

/-- The resolved explicit hasMore flag of a payload. -/
def payloadHasMoreFlag (payload : Json) : Option Bool :=
  pickBooleanFromSources (gatherMetadataSources payload) HAS_MORE_PATHS

/-- The raw item list of parseCommentsPayload before normalization:
Collection Discovery first; an array payload as-is when discovery found
nothing (reachable only for the empty array, discovery returning any
array immediately); this step never involves normalizeComment. -/
def rawItemsOf (payload : Json) : List Json :=
  let raw := findFirstArray payload
  match payload with
  | .arr xs => if raw.isEmpty then xs else raw
  | _ => raw

/-- The per-item pre-expansion map of parseCommentsPayload
(expandCommentEntry(item) ?? item). -/
def expandedItems (items : List Json) : List Json :=
  items.map (fun item =>
    match expandCommentEntry item with
    | some fs => Json.obj fs
    | none => item)

/-- parseCommentsPayload from src/lib/comments.ts: discover the raw
items (falling back to treating a record payload as a single item when it
itself normalizes), expand and normalize each, drop nulls, then resolve
cursor and hasMore from the harvested metadata sources; hasMore defaults
to cursor presence.  Normalizing items can throw.

First the single-item fallback: when discovery found nothing and the
payload is itself a record that normalizes, the payload is the one raw
item (the trial normalization can throw). -/
def directItemFallback (env : DateEnv) (payload : Json) (raw : List Json) :
    Except JsError (List Json) :=
  match payload, raw with
  | .obj _, [] =>
    match normalizeComment env payload with
    | .error e => .error e
    | .ok (some _) => .ok [payload]
    | .ok none => .ok []
  | _, r => .ok r

def parseCommentsPayload (env : DateEnv) (payload : Json) :
    Except JsError ParsedCommentsPayload :=
  match directItemFallback env payload (rawItemsOf payload) with
  | .error e => .error e
  | .ok rawItems =>
    match mapNormalize env (expandedItems rawItems) with
    | .error e => .error e
    | .ok normalized =>
      .ok
        { items := normalized.reduceOption
          nextCursor := payloadNextCursor payload
          hasMore := (payloadHasMoreFlag payload).getD (payloadNextCursor payload).isSome }

/-- A video stats field as produced by Number(x ?? 0) || 0: the value is
a raw JavaScript number, so NaN is replaced by 0 but any other number --
negative, fractional or infinite -- passes through. -/
def jsOrZero (n : JsNum) : JsNum :=
  match n with
  | .nan => .fin 0
  | x => x

/-- The stats record of the normalized video. -/
structure VideoStats where
  likes : JsNum
  comments : JsNum
  shares : JsNum
deriving DecidableEq

/-- The normalized PublishedVideo record; optional TypeScript fields are
Options (none = undefined). -/
structure PublishedVideo where
  id : String
  videoUrl : String
  title : String
  description : String
  originalPrompt : Option String
  tags : Option (List String)
  creatorHandle : Option String
  createdBy : Option String
  sessionId : Option String
  createdAt : Option String
  stats : VideoStats
  viewerHasLiked : Bool
  isBotUser : Bool
deriving DecidableEq

/-- The id resolution of normalizeVideo: a non-empty string id, else a
non-empty string _id, else null (truthiness rejects the empty string). -/
def videoAltId (fs : List (String × Json)) : Option String :=
  match lookupField fs "_id" with
  | some (.str s) => if s ≠ "" then some s else none
  | _ => none

/-- videoIdOf: see videoAltId. -/
def videoIdOf (fs : List (String × Json)) : Option String :=
  match lookupField fs "id" with
  | some (.str s) => if s ≠ "" then some s else videoAltId fs
  | _ => videoAltId fs

/-- record.stats ?? {}: only null (or absence) is replaced by the empty
record; any other value is kept and its properties read as JavaScript
property accesses. -/
def videoStatsSource (fs : List (String × Json)) : Json :=
  match lookupField fs "stats" with
  | none => .obj []
  | some .null => .obj []
  | some v => v

/-- One stats field: Number(statsSource[key] ?? 0) || 0. -/
def videoStatField (statsSource : Json) (key : String) : JsNum :=
  jsOrZero (jsValueToNumber ((jsGetProp statsSource key).getD (Json.num 0)))

/-- The stats record of normalizeVideo. -/
def videoStatsOf (fs : List (String × Json)) : VideoStats :=
  { likes := videoStatField (videoStatsSource fs) "likes"
    comments := videoStatField (videoStatsSource fs) "comments"
    shares := videoStatField (videoStatsSource fs) "shares" }

/-- The tags resolution: only arrays produce a value; string entries are
trimmed and blank results dropped. -/
def videoTagsOf (fs : List (String × Json)) : Option (List String) :=
  match lookupField fs "tags" with
  | some (.arr xs) =>
    some (((xs.filterMap (fun t =>
      match t with
      | .str s => some (jsTrim s)
      | _ => none))).filter (fun s => s ≠ ""))
  | _ => none

/-- The createdAt resolution of normalizeVideo: strings pass through
verbatim; a Date instance cannot occur in JSON.parse output; any other
truthy value goes through the Date constructor and toISOString, which
throws when the resulting time value is invalid (numbers out of the Date
range, and objects or arrays whose string form does not parse); falsy
values yield null. -/
def videoCreatedAt (env : DateEnv) (fs : List (String × Json)) :
    Except JsError (Option String) :=
  match lookupField fs "createdAt" with
  | some (.str s) => .ok (some s)
  | none => .ok none
  | some v =>
    if jsTruthy v then
      match v with
      | .num q =>
        match jsTimeClip q with
        | some t => .ok (some (env.epochToIso t))
        | none => .error .rangeError
      | .bool _ =>
        .ok (some (env.epochToIso 1))
      | _ =>
        match env.parseDate (jsToString v) with
        | some t => .ok (some (env.epochToIso t))
        | none => .error .rangeError
    else .ok none

/-- The createdBy resolution: a string passes through; a truthy object
(or array) exposes the string-conversion capability and is stringified;
anything else yields null. -/
def videoCreatedBy (fs : List (String × Json)) : Option String :=
  match lookupField fs "createdBy" with
  | some (.str s) => some s
  | some (.obj gs) => some (jsToString (.obj gs))
  | some (.arr xs) => some (jsToString (.arr xs))
  | _ => none

/-- Truthiness of a possibly absent property (Boolean(record[key])). -/
def propTruthy (fs : List (String × Json)) (key : String) : Bool :=
  match lookupField fs key with
  | some v => jsTruthy v
  | none => false

/-- The videoUrl resolution of normalizeVideo: a string value trimmed,
anything else the empty string (which is then rejected). -/
def videoUrlOf (fs : List (String × Json)) : String :=
  match lookupField fs "videoUrl" with
  | some (.str s) => jsTrim s
  | _ => ""

/-- normalizeVideo from src/components/VideoGallery.tsx: requires an id
(id or legacy _id) and a non-empty trimmed videoUrl, else null; assembles
the record with the documented defaults; resolving createdAt can throw. -/
def normalizeVideo (env : DateEnv) (payload : Json) :
    Except JsError (Option PublishedVideo) :=
  match payload with
  | .obj fs =>
    match videoIdOf fs with
    | none => .ok none
    | some id =>
      if videoUrlOf fs = "" then .ok none
      else
        match videoCreatedAt env fs with
        | .error e => .error e
        | .ok createdAt =>
          .ok (some
            { id := id
              videoUrl := videoUrlOf fs
              title :=
                match lookupField fs "title" with
                | some (.str s) => if jsTrim s ≠ "" then jsTrim s else "Untitled Video"
                | _ => "Untitled Video"
              description :=
                match lookupField fs "description" with
                | some (.str s) => jsTrim s
                | _ => ""
              originalPrompt :=
                match lookupField fs "originalPrompt" with
                | some (.str s) => some (jsTrim s)
                | _ => none
              tags := videoTagsOf fs
              creatorHandle :=
                match lookupField fs "creatorHandle" with
                | some (.str s) => some (jsTrim s)
                | _ => none
              createdBy := videoCreatedBy fs
              sessionId :=
                match lookupField fs "sessionId" with
                | some (.str s) => some s
                | _ => none
              createdAt := createdAt
              stats := videoStatsOf fs
              viewerHasLiked := propTruthy fs "viewerHasLiked"
              isBotUser := propTruthy fs "isBotUser" })
  | _ => .ok none

/-- The replacement record of the merge: the object literal spreads the
existing entity, then the incoming one, then re-assigns stats and
viewerHasLiked from the incoming entity.  mergeVideos is typed over
PublishedVideo, whose values (all produced by normalizeVideo object
literals) carry every own property, so every field of the incoming
entity overwrites the corresponding existing field. -/
def spreadVideo (old new : PublishedVideo) : PublishedVideo :=
  { old with
    id := new.id
    videoUrl := new.videoUrl
    title := new.title
    description := new.description
    originalPrompt := new.originalPrompt
    tags := new.tags
    creatorHandle := new.creatorHandle
    createdBy := new.createdBy
    sessionId := new.sessionId
    createdAt := new.createdAt
    stats := new.stats
    viewerHasLiked := new.viewerHasLiked
    isBotUser := new.isBotUser }

/-- One incoming entity folded into the accumulated result: replace the
first entity with the same id in place (result.findIndex plus indexed
assignment in the source), or append at the end. -/
def upsertVideo : List PublishedVideo → PublishedVideo → List PublishedVideo
  | [], v => [v]
  | x :: xs, v =>
    if x.id = v.id then spreadVideo x v :: xs else x :: upsertVideo xs v

/-- mergeVideos from src/components/VideoGallery.tsx: an empty existing
collection returns the incoming one unchanged; otherwise each incoming
entity is folded in, in arrival order.  (The Map built by the source is
written but never read and does not affect the result.) -/
def mergeVideos (existing incoming : List PublishedVideo) :
    List PublishedVideo :=
  match existing with
  | [] => incoming
  | _ => incoming.foldl upsertVideo existing

/-! ## Inversion and characterization lemmas shared by the claim theorems -/

/-- Resolved id of a payload, as normalizeComment computes it (empty for
non-records, which are rejected anyway). -/
def resolvedCommentId (p : Json) : String :=
  match expandCommentEntry p with
  | some fs => commentIdOf fs
  | none => ""

/-- Resolved final text of a payload, as normalizeComment computes it. -/
def resolvedCommentText (p : Json) : String :=
  match expandCommentEntry p with
  | some fs => commentTextOf fs
  | none => ""

theorem lookupField_setField_self (fs : List (String × Json)) (k : String)
    (v : Json) : lookupField (setField fs k v) k = some v := by
  induction fs with
  | nil => simp [setField, lookupField]
  | cons kv rest ih =>
    obtain ⟨k1, v1⟩ := kv
    by_cases h : k1 = k
    · simp [setField, lookupField, h]
    · simp [setField, lookupField, h, ih]

theorem lookupField_setField_ne (fs : List (String × Json)) (k k1 : String)
    (v : Json) (h : k1 ≠ k) :
    lookupField (setField fs k v) k1 = lookupField fs k1 := by
  have hne : ¬ k = k1 := fun hh => h hh.symm
  induction fs with
  | nil => simp [setField, lookupField, hne]
  | cons kv rest ih =>
    obtain ⟨k2, v2⟩ := kv
    by_cases h2 : k2 = k
    · subst h2
      simp [setField, lookupField, hne]
    · by_cases h3 : k2 = k1
      · simp [setField, lookupField, h2, h3, h]
      · simp [setField, lookupField, h2, h3, ih]

theorem shouldOverride_congr (fs gs : List (String × Json)) (k : String)
    (v : Json) (h : lookupField fs k = lookupField gs k) :
    shouldOverride fs k v = shouldOverride gs k v := by
  unfold shouldOverride
  rw [h]

theorem lookup_applyNested_not_mem (nested : List (String × Json))
    (fs : List (String × Json)) (k : String)
    (h : k ∉ nested.map Prod.fst) :
    lookupField (applyNested fs nested) k = lookupField fs k := by
  induction nested generalizing fs with
  | nil => simp [applyNested]
  | cons kv rest ih =>
    obtain ⟨k1, v1⟩ := kv
    simp only [List.map_cons, List.mem_cons] at h
    push_neg at h
    obtain ⟨hne, hrest⟩ := h
    rw [applyNested, ih _ hrest]
    by_cases hso : shouldOverride fs k1 v1
    · simp [hso, lookupField_setField_ne _ _ _ _ hne]
    · simp [hso]

theorem lookup_applyNested_mem (nested : List (String × Json))
    (fs : List (String × Json)) (k : String) (v : Json)
    (hnd : (nested.map Prod.fst).Nodup) (hmem : (k, v) ∈ nested) :
    lookupField (applyNested fs nested) k =
      if shouldOverride fs k v = true then some v else lookupField fs k := by
  induction nested generalizing fs with
  | nil => cases hmem
  | cons kv rest ih =>
    obtain ⟨k1, v1⟩ := kv
    simp only [List.map_cons, List.nodup_cons] at hnd
    obtain ⟨hk1, hndrest⟩ := hnd
    rcases List.mem_cons.mp hmem with heq | hrest
    · obtain ⟨hk, hv⟩ := Prod.mk.injEq .. ▸ heq
      subst hk
      subst hv
      have hkn : k ∉ rest.map Prod.fst := hk1
      rw [applyNested, lookup_applyNested_not_mem _ _ _ hkn]
      by_cases hso : shouldOverride fs k v
      · simp [hso, lookupField_setField_self]
      · simp [hso]
    · have hkne : k ≠ k1 := by
        intro hcon
        exact hk1 (hcon ▸ (List.mem_map_of_mem Prod.fst hrest))
      rw [applyNested]
      set fsStep := if shouldOverride fs k1 v1 = true then setField fs k1 v1 else fs with hfsStep
      have hlk : lookupField fsStep k = lookupField fs k := by
        rw [hfsStep]
        by_cases hso : shouldOverride fs k1 v1
        · simp [hso, lookupField_setField_ne _ _ _ _ hkne]
        · simp [hso]
      rw [ih fsStep hndrest hrest, shouldOverride_congr fsStep fs k v hlk, hlk]

theorem normalizeComment_ok_some (env : DateEnv) (p : Json)
    (c : VideoComment) (h : normalizeComment env p = .ok (some c)) :
    ∃ fs, expandCommentEntry p = some fs ∧ commentIdOf fs ≠ "" ∧
      commentTextOf fs ≠ "" ∧ c.id = commentIdOf fs ∧
      c.text = commentTextOf fs := by
  unfold normalizeComment at h
  split at h
  · cases h
  next fs hfs =>
    split at h
    · cases h
    next hcond =>
      push_neg at hcond
      split at h
      · cases h
      next iso hiso =>
        refine ⟨fs, hfs, hcond.1, hcond.2, ?_, ?_⟩
        · exact congrArg VideoComment.id (Option.some.inj (Except.ok.inj h)).symm
        · exact congrArg VideoComment.text (Option.some.inj (Except.ok.inj h)).symm

theorem mapNormalize_ok_mem (env : DateEnv) (xs : List Json)
    (ys : List (Option VideoComment)) (h : mapNormalize env xs = .ok ys)
    (y : Option VideoComment) (hy : y ∈ ys) :
    ∃ x, normalizeComment env x = .ok y := by
  induction xs generalizing ys with
  | nil =>
    rw [mapNormalize] at h
    cases h
    cases hy
  | cons x rest ih =>
    rw [mapNormalize] at h
    split at h
    · cases h
    next y1 hy1 =>
      split at h
      · cases h
      next ys1 hys1 =>
        cases h
        rcases List.mem_cons.mp hy with heq | hmem
        · exact ⟨x, heq ▸ hy1⟩
        · exact ih ys1 hys1 hmem

theorem parseCommentsPayload_ok_fields (env : DateEnv) (p : Json)
    (r : ParsedCommentsPayload) (h : parseCommentsPayload env p = .ok r) :
    r.nextCursor = payloadNextCursor p ∧
      r.hasMore = (payloadHasMoreFlag p).getD (payloadNextCursor p).isSome := by
  unfold parseCommentsPayload at h
  split at h
  · cases h
  · split at h
    · cases h
    · cases h
      exact ⟨rfl, rfl⟩

theorem parseCommentsPayload_ok_items (env : DateEnv) (p : Json)
    (r : ParsedCommentsPayload) (h : parseCommentsPayload env p = .ok r)
    (c : VideoComment) (hc : c ∈ r.items) :
    ∃ x, normalizeComment env x = .ok (some c) := by
  unfold parseCommentsPayload at h
  split at h
  · cases h
  next rawItems hraw =>
    split at h
    · cases h
    next normalized hmap =>
      cases h
      simp only [List.reduceOption_mem_iff] at hc
      exact mapNormalize_ok_mem env _ normalized hmap (some c) hc

theorem valueAtPath_arr_single (xs : List Json) (seg : String) :
    valueAtPath (.arr xs) [seg] =
      match jsArrayIndex seg xs.length with
      | some i => xs[i]?
      | none => none := by
  cases h : jsArrayIndex seg xs.length <;>
    simp [valueAtPath, valueAtPathAux, h]

theorem jsArrayIndex_of_fin (seg : String) (q : ℚ) (len : Nat)
    (h : stringToNumber seg = .fin q) :
    jsArrayIndex seg len =
      if q.den = 1 ∧ 0 ≤ q.num ∧ q.num < (len : ℤ) then some q.num.toNat
      else none := by
  simp only [jsArrayIndex, h]

theorem valueAtPath_arr_natSeg (xs : List Json) (seg : String) (i : Nat)
    (h : stringToNumber seg = .fin (i : ℚ)) :
    valueAtPath (.arr xs) [seg] = xs[i]? := by
  rw [valueAtPath_arr_single,
    jsArrayIndex_of_fin seg (i : ℚ) xs.length h]
  rcases lt_or_ge i xs.length with hlt | hge
  · rw [if_pos]
    · simp
    · refine ⟨Rat.den_natCast i, ?_, ?_⟩ <;> simp [Rat.num_natCast]
      exact_mod_cast hlt
  · rw [if_neg]
    · exact (List.getElem?_eq_none hge).symm
    · rintro ⟨-, -, hc⟩
      rw [Rat.num_natCast] at hc
      exact absurd (by exact_mod_cast hc) (Nat.not_lt.mpr hge)

/-! ## Claim theorems -/

/-- C10: the Path Resolver parses array-index segments with JavaScript
Number conversion rather than canonical decimal parsing: for arrays, the
empty segment and whitespace-only segments resolve to index 0, the
hexadecimal segment 0x2 to index 2 and the exponent segment 1e1 to index
10 (each equal to the corresponding positional lookup, absent when out of
bounds), while segments whose conversion is negative, non-integral or NaN
short-circuit to undefined; in general a segment whose finite conversion
is an in-range non-negative integer resolves to that index and every
other conversion outcome yields undefined. -/
theorem valueAtPath_numeric_index_semantics :
    (∀ xs : List Json, valueAtPath (.arr xs) [""] = xs[0]?) ∧
    (∀ xs : List Json, valueAtPath (.arr xs) [" \t\n "] = xs[0]?) ∧
    (∀ xs : List Json, valueAtPath (.arr xs) ["0x2"] = xs[2]?) ∧
    (∀ xs : List Json, valueAtPath (.arr xs) ["1e1"] = xs[10]?) ∧
    (∀ xs : List Json, valueAtPath (.arr xs) ["-1"] = none) ∧
    (∀ xs : List Json, valueAtPath (.arr xs) ["1.5"] = none) ∧
    (∀ xs : List Json, valueAtPath (.arr xs) ["abc"] = none) ∧
    (∀ xs : List Json, valueAtPath (.arr xs) ["Infinity"] = none) ∧
    (∀ (xs : List Json) (seg : String) (q : ℚ),
      stringToNumber seg = .fin q → q.den = 1 → 0 ≤ q.num →
      q.num < (xs.length : ℤ) →
      valueAtPath (.arr xs) [seg] = xs[q.num.toNat]?) ∧
    (∀ (xs : List Json) (seg : String) (q : ℚ),
      stringToNumber seg = .fin q →
      (q.den ≠ 1 ∨ q.num < 0 ∨ (xs.length : ℤ) ≤ q.num) →
      valueAtPath (.arr xs) [seg] = none) := by
  have hrej : ∀ (xs : List Json) (seg : String) (q : ℚ),
      stringToNumber seg = .fin q →
      (q.den ≠ 1 ∨ q.num < 0 ∨ (xs.length : ℤ) ≤ q.num) →
      valueAtPath (.arr xs) [seg] = none := by
    intro xs seg q h hbad
    rw [valueAtPath_arr_single, jsArrayIndex_of_fin seg q xs.length h, if_neg]
    rintro ⟨h1, h2, h3⟩
    rcases hbad with hb | hb | hb
    · exact hb h1
    · exact absurd h2 (not_le.mpr hb)
    · exact absurd h3 (not_lt.mpr hb)
  have hacc : ∀ (xs : List Json) (seg : String) (q : ℚ),
      stringToNumber seg = .fin q → q.den = 1 → 0 ≤ q.num →
      q.num < (xs.length : ℤ) →
      valueAtPath (.arr xs) [seg] = xs[q.num.toNat]? := by
    intro xs seg q h h1 h2 h3
    rw [valueAtPath_arr_single, jsArrayIndex_of_fin seg q xs.length h,
      if_pos ⟨h1, h2, h3⟩]
  refine ⟨?_, ?_, ?_, ?_, ?_, ?_, ?_, ?_, hacc, hrej⟩
  · exact fun xs => valueAtPath_arr_natSeg xs "" 0 (by decide)
  · exact fun xs => valueAtPath_arr_natSeg xs " \t\n " 0 (by decide)
  · exact fun xs => valueAtPath_arr_natSeg xs "0x2" 2 (by decide)
  · exact fun xs => valueAtPath_arr_natSeg xs "1e1" 10 (by decide)
  · intro xs
    exact hrej xs "-1" (-1) (by decide) (Or.inr (Or.inl (by decide)))
  · intro xs
    exact hrej xs "1.5" (mkRat 3 2) (by decide) (Or.inl (by decide))
  · intro xs
    rw [valueAtPath_arr_single,
      show jsArrayIndex "abc" xs.length = none by
        simp only [jsArrayIndex, show stringToNumber "abc" = .nan from by decide]
    ]
  · intro xs
    rw [valueAtPath_arr_single,
      show jsArrayIndex "Infinity" xs.length = none by
        simp only [jsArrayIndex,
          show stringToNumber "Infinity" = .inf false from by decide]
    ]

/-- C10 witness: the general acceptance branch applied at the segment 0x2
over a three-element array. -/
theorem valueAtPath_numeric_index_witness :
    valueAtPath (.arr [.null, .null, .bool true]) ["0x2"] =
      [Json.null, Json.null, Json.bool true][(2 : ℤ).toNat]? :=
  valueAtPath_numeric_index_semantics.2.2.2.2.2.2.2.2.1
    [Json.null, Json.null, Json.bool true] "0x2" ((2 : ℕ) : ℚ)
    (by decide) (by decide) (by decide) (by decide)

/-- Example: a non-empty array nested exactly 4 levels under unknown keys. -/
def depth4Example : Json :=
  .obj [("a", .obj [("b", .obj [("c", .obj [("d", .arr [.num 1])])])])]

/-- Example: a non-empty array nested 5 levels under unknown keys. -/
def depth5Example : Json :=
  .obj [("a", .obj [("b", .obj [("c", .obj [("d", .obj [("e", .arr [.num 1])])])])])]

/-- Example: a known container key is probed before an unknown key that
comes first in enumeration order. -/
def priorityExample : Json :=
  .obj [("zzz", .arr [.num 9]), ("items", .arr [.num 1])]

/-- Example: the unknown-key fallback scans keys in enumeration order. -/
def enumOrderExample : Json :=
  .obj [("b", .obj [("x", .arr [.num 1])]), ("a", .arr [.num 2])]

/-- Example: a non-empty array one level under an unknown key. -/
def unknownKeyExample : Json :=
  .obj [("wrap", .arr [.num 3])]

/-- Example: a non-empty array 4 levels under unknown keys, for the
VideoGallery copy. -/
def galleryDepth4Example : Json :=
  .obj [("w", .obj [("x", .obj [("y", .obj [("z", .arr [.num 7])])])])]

/-- C3 counterexample: the claim attributes the unknown-key fallback to
findFirstArray including the copy in VideoGallery.tsx (cited as a
source), but that copy probes only the well-known container keys: a
non-empty array nested exactly 4 levels under unknown keys -- which the
claim says is found -- yields the empty array there. -/
theorem galleryFindFirstArray_no_unknown_key_fallback :
    galleryFindFirstArray galleryDepth4Example = [] ∧
    findFirstArray galleryDepth4Example = [.num 7] := by
  constructor <;> rfl

/-- C3 (amended): for findFirstArray of src/lib/comments.ts the claim
holds -- the well-known container keys are probed in priority order
before the unknown-key fallback (items wins over an unknown key earlier
in enumeration order), the fallback scans remaining keys in enumeration
order, and the recursion is bounded at depth 4: an array nested exactly 4
levels under unknown keys is found while one nested 5 levels deep yields
[]; the VideoGallery.tsx copy lacks the fallback and finds nothing under
unknown keys. -/
theorem findFirstArray_priority_fallback_depth_bound :
    findFirstArray depth4Example = [.num 1] ∧
    findFirstArray depth5Example = [] ∧
    findFirstArray priorityExample = [.num 1] ∧
    findFirstArray enumOrderExample = [.num 1] ∧
    galleryFindFirstArray unknownKeyExample = [] ∧
    findFirstArray unknownKeyExample = [.num 3] := by
  refine ⟨rfl, rfl, rfl, rfl, rfl, rfl⟩

/-- C2 failing input: a comment whose resolved createdAt candidate has a
finite Number conversion beyond the Date range; the code reaches
new Date(9e15).toISOString(), which throws a RangeError, contradicting
the never-throws guarantee (9e15 exceeds the maximum time value
8.64e15). -/
def createdAtOverflowB : Json :=
  .obj [("id", .str "2"), ("text", .str "hello"), ("createdAt", .str "9e15")]

/-- C2: evaluation of normalizeComment at the failing input: the model of
the source raises the RangeError instead of returning a value, refuting
the no-throw part of the claim (termination itself holds: every modelled
function is total). -/
theorem normalizeComment_throws_on_out_of_range_epoch :
    normalizeComment trivDateEnv createdAtOverflowB = .error .rangeError := by
  rfl

/-- Example payload of the spec: valid id, padded text. -/
def commentExampleA : Json :=
  .obj [("id", .str "1"), ("text", .str "  hi  ")]

/-- Example payload of the spec: empty text. -/
def commentExampleB : Json :=
  .obj [("id", .str "1"), ("text", .str "")]

/-- Example payload of the spec: no id. -/
def commentExampleC : Json :=
  .obj [("text", .str "hi")]

/-- C1 counterexample input: resolved id and text are non-empty, yet the
out-of-range numeric createdAt candidate makes toISOString throw, so no
Comment record is returned. -/
def createdAtOverflowA : Json :=
  .obj [("id", .str "1"), ("text", .str "hi"), ("createdAt", .str "1e300")]

/-- C1 counterexample: a payload with non-empty resolved id and text for
which normalizeComment raises a RangeError instead of returning a Comment
record, refuting the unconditional otherwise-returns-a-record half of the
claim. -/
theorem normalizeComment_createdAt_overflow_cex :
    resolvedCommentId createdAtOverflowA = "1" ∧
    resolvedCommentText createdAtOverflowA = "hi" ∧
    normalizeComment trivDateEnv createdAtOverflowA = .error .rangeError := by
  refine ⟨rfl, rfl, rfl⟩

/-- C1 (amended): normalizeComment returns null exactly when the resolved
id or the resolved text (after trimming and tag stripping) is empty; when
both are non-empty and the createdAt resolution does not raise the
out-of-range RangeError it returns the Comment record built from the
resolved fields; in particular the documented examples hold:
{id:"1", text:"  hi  "} normalizes to {id:"1", text:"hi",
creatorHandle:"User", createdBy:"", likes:0, isBotUser:false} with the
environment's current ISO time, while {id:"1", text:""} and {text:"hi"}
yield null. -/
theorem normalizeComment_null_iff_empty_and_defaults :
    (∀ (env : DateEnv) (p : Json),
      normalizeComment env p = .ok none ↔
        (resolvedCommentId p = "" ∨ resolvedCommentText p = "")) ∧
    (∀ (env : DateEnv) (p : Json) (fs : List (String × Json)) (iso : String),
      expandCommentEntry p = some fs →
      commentIdOf fs ≠ "" → commentTextOf fs ≠ "" →
      commentCreatedAt env fs = .ok iso →
      normalizeComment env p = .ok (some
        { id := commentIdOf fs
          text := commentTextOf fs
          creatorHandle := (pickString (.obj fs) COMMENT_HANDLE_PATHS).getD "User"
          createdBy := (pickString (.obj fs) COMMENT_CREATED_BY_PATHS).getD ""
          createdAt := iso
          likes := commentLikesOf fs
          isBotUser := (pickBoolean (.obj fs) COMMENT_BOT_PATHS).getD false })) ∧
    (∀ env : DateEnv, normalizeComment env commentExampleA = .ok (some
      { id := "1", text := "hi", creatorHandle := "User", createdBy := "",
        createdAt := env.nowIso, likes := 0, isBotUser := false })) ∧
    (∀ env : DateEnv, normalizeComment env commentExampleB = .ok none) ∧
    (∀ env : DateEnv, normalizeComment env commentExampleC = .ok none) := by
  refine ⟨?_, ?_, fun env => rfl, fun env => rfl, fun env => rfl⟩
  · intro env p
    unfold normalizeComment resolvedCommentId resolvedCommentText
    cases hfs : expandCommentEntry p with
    | none => simp
    | some fs =>
      by_cases hcond : commentIdOf fs = "" ∨ commentTextOf fs = ""
      · simp [hcond]
      · cases hca : commentCreatedAt env fs with
        | error e => simp [hcond, hca]
        | ok iso => simp [hcond, hca]
  · intro env p fs iso hfs hid htext hca
    simp only [normalizeComment, hfs]
    rw [if_neg (not_or.mpr ⟨hid, htext⟩), hca]

/-- C1 witness: the defaults branch applied at the first documented
example with the concrete date environment. -/
theorem normalizeComment_null_iff_empty_and_defaults_witness :
    normalizeComment trivDateEnv commentExampleA = .ok (some
      { id := commentIdOf [("id", Json.str "1"), ("text", Json.str "  hi  ")]
        text := commentTextOf [("id", Json.str "1"), ("text", Json.str "  hi  ")]
        creatorHandle :=
          (pickString (.obj [("id", Json.str "1"), ("text", Json.str "  hi  ")])
            COMMENT_HANDLE_PATHS).getD "User"
        createdBy :=
          (pickString (.obj [("id", Json.str "1"), ("text", Json.str "  hi  ")])
            COMMENT_CREATED_BY_PATHS).getD ""
        createdAt := "1970-01-01T00:00:00.000Z"
        likes := commentLikesOf [("id", Json.str "1"), ("text", Json.str "  hi  ")]
        isBotUser :=
          (pickBoolean (.obj [("id", Json.str "1"), ("text", Json.str "  hi  ")])
            COMMENT_BOT_PATHS).getD false }) :=
  normalizeComment_null_iff_empty_and_defaults.2.1 trivDateEnv commentExampleA
    [("id", Json.str "1"), ("text", Json.str "  hi  ")]
    "1970-01-01T00:00:00.000Z" rfl (by decide) (by decide) rfl

/-- The comment text paths of the normalizeComment copy in
src/components/VideoGallery.tsx, in source order: a shorter list than the
comments-library one (no HTML-oriented aliases such as bodyHtml). -/
def GALLERY_COMMENT_TEXT_PATHS : List (List String) :=
  [["text"], ["body"], ["content"], ["message"], ["comment"], ["value"],
   ["payload", "text"], ["payload", "content"], ["node", "text"],
   ["node", "body"], ["node", "content"], ["node", "message"],
   ["comment", "text"], ["comment", "body"], ["comment", "content"],
   ["comment", "message"], ["data", "text"], ["data", "content"],
   ["attributes", "text"], ["attributes", "content"]]

/-- The creator-handle paths of the VideoGallery copy, in source order:
the library list without the two attributes entries. -/
def GALLERY_COMMENT_HANDLE_PATHS : List (List String) :=
  [["creatorHandle"], ["creator_handle"], ["creator", "handle"],
   ["creator", "username"], ["creator", "name"], ["user", "handle"],
   ["user", "username"], ["user", "name"], ["author", "handle"],
   ["author", "username"], ["author", "name"], ["owner", "handle"],
   ["owner", "username"], ["owner", "name"], ["profile", "handle"],
   ["profile", "username"], ["profile", "name"], ["createdBy", "handle"],
   ["createdBy", "username"], ["created_by", "handle"],
   ["created_by", "username"], ["account", "handle"],
   ["account", "username"], ["account", "name"]]

/-- The createdAt paths of the VideoGallery copy, in source order: the
same names as the library list but with the created alias placed after
inserted_at instead of third. -/
def GALLERY_COMMENT_CREATED_AT_PATHS : List (List String) :=
  [["createdAt"], ["created_at"], ["createdOn"], ["created_on"],
   ["timestamp"], ["publishedAt"], ["published_at"], ["insertedAt"],
   ["inserted_at"], ["created"], ["dateCreated"], ["date_created"],
   ["node", "createdAt"], ["node", "created_at"], ["comment", "createdAt"],
   ["comment", "created_at"], ["meta", "createdAt"], ["meta", "created_at"]]

/-- The final text of the VideoGallery normalizeComment copy: the
resolved raw text trimmed and used verbatim -- that file contains no tag
replace, so no HTML stripping happens. -/
def galleryCommentTextOf (fs : List (String × Json)) : String :=
  jsTrim ((pickString (.obj fs) GALLERY_COMMENT_TEXT_PATHS).getD "")

/-- The createdAt resolution of the VideoGallery copy: same computation
as the library one (numeric epoch first with the unguarded toISOString,
then Date.parse, then the current time) over its own path table. -/
def galleryCommentCreatedAt (env : DateEnv) (fs : List (String × Json)) :
    Except JsError String :=
  match pickString (.obj fs) GALLERY_COMMENT_CREATED_AT_PATHS with
  | none => .ok env.nowIso
  | some cand =>
    match stringToNumber cand with
    | .fin q =>
      match jsTimeClip q with
      | some t => .ok (env.epochToIso t)
      | none => .error .rangeError
    | _ =>
      match env.parseDate cand with
      | some t => .ok (env.epochToIso t)
      | none => .ok env.nowIso

/-- normalizeComment from src/components/VideoGallery.tsx (lines
396-580): same structure as the library version -- its expandCommentEntry,
valueAtPath, pickString, id, createdBy, likes and isBot tables are
textually identical to the library ones and are shared here, and its
pickBoolean checks numbers before strings, which is equivalent because
the branches are type-disjoint -- but its text is the trimmed resolved
value used verbatim: this copy performs no HTML stripping. -/
def galleryNormalizeComment (env : DateEnv) (payload : Json) :
    Except JsError (Option VideoComment) :=
  match expandCommentEntry payload with
  | none => .ok none
  | some fs =>
    if commentIdOf fs = "" ∨ galleryCommentTextOf fs = "" then .ok none
    else
      match galleryCommentCreatedAt env fs with
      | .error e => .error e
      | .ok iso =>
        .ok (some
          { id := commentIdOf fs
            text := galleryCommentTextOf fs
            creatorHandle :=
              (pickString (.obj fs) GALLERY_COMMENT_HANDLE_PATHS).getD "User"
            createdBy := (pickString (.obj fs) COMMENT_CREATED_BY_PATHS).getD ""
            createdAt := iso
            likes := commentLikesOf fs
            isBotUser := (pickBoolean (.obj fs) COMMENT_BOT_PATHS).getD false })

/-- The HTML-stripping example of the spec. -/
def htmlExample : Json :=
  .obj [("id", .str "1"), ("text", .str "<b>Hi</b> there")]

/-- C7 counterexample: the claim cites the normalizeComment copy of
src/components/VideoGallery.tsx, and that copy performs no HTML
stripping -- at the claim's own example it returns the trimmed text
verbatim, not "Hi there", refuting the claim for a cited copy. -/
theorem galleryNormalizeComment_no_html_stripping_cex :
    (galleryNormalizeComment trivDateEnv htmlExample).map
        (Option.map VideoComment.text) = .ok (some "<b>Hi</b> there") ∧
    ("<b>Hi</b> there" : String) ≠ "Hi there" := by
  exact ⟨rfl, by decide⟩

/-- C7 (amended): in normalizeComment of src/lib/comments.ts, when the
trimmed resolved text contains both a lt and a gt sign, every tag-like
substring is stripped and the result re-trimmed, with rejection (null)
when empty afterwards, and in particular {id:"1", text:"<b>Hi</b> there"}
normalizes with text "Hi there"; the normalizeComment copy in
src/components/VideoGallery.tsx performs no tag stripping and returns
the trimmed resolved text verbatim for the same input. -/
theorem normalizeComment_html_stripping :
    (∀ fs : List (String × Json),
      hasChar (commentRawText fs) '<' = true →
      hasChar (commentRawText fs) '>' = true →
      commentTextOf fs = jsTrim (stripTags (commentRawText fs))) ∧
    (∀ (env : DateEnv) (p : Json) (fs : List (String × Json)),
      expandCommentEntry p = some fs →
      hasChar (commentRawText fs) '<' = true →
      hasChar (commentRawText fs) '>' = true →
      jsTrim (stripTags (commentRawText fs)) = "" →
      normalizeComment env p = .ok none) ∧
    (∀ env : DateEnv, normalizeComment env htmlExample = .ok (some
      { id := "1", text := "Hi there", creatorHandle := "User",
        createdBy := "", createdAt := env.nowIso, likes := 0,
        isBotUser := false })) ∧
    (∀ env : DateEnv, galleryNormalizeComment env htmlExample = .ok (some
      { id := "1", text := "<b>Hi</b> there", creatorHandle := "User",
        createdBy := "", createdAt := env.nowIso, likes := 0,
        isBotUser := false })) := by
  have htext : ∀ fs : List (String × Json),
      hasChar (commentRawText fs) '<' = true →
      hasChar (commentRawText fs) '>' = true →
      commentTextOf fs = jsTrim (stripTags (commentRawText fs)) := by
    intro fs h1 h2
    unfold commentTextOf
    rw [if_pos]
    rw [h1, h2]
    rfl
  refine ⟨htext, ?_, fun env => rfl, fun env => rfl⟩
  intro env p fs hfs h1 h2 hempty
  have : commentTextOf fs = "" := by rw [htext fs h1 h2, hempty]
  simp only [normalizeComment, hfs]
  rw [if_pos (Or.inr this)]

/-- C7 witness: the stripping equation applied at the documented example
(whose raw text contains both signs). -/
theorem normalizeComment_html_stripping_witness :
    commentTextOf [("id", Json.str "1"), ("text", Json.str "<b>Hi</b> there")] =
      jsTrim (stripTags
        (commentRawText [("id", Json.str "1"), ("text", Json.str "<b>Hi</b> there")])) :=
  normalizeComment_html_stripping.1
    [("id", Json.str "1"), ("text", Json.str "<b>Hi</b> there")]
    (by decide) (by decide)

/-- A page payload whose two raw items carry the same id. -/
def duplicateIdsExample : Json :=
  .arr [.obj [("id", .str "1"), ("text", .str "a")],
        .obj [("id", .str "1"), ("text", .str "b")]]

/-- C9 counterexample: parseCommentsPayload performs no deduplication --
a payload with two valid items of the same id yields a page whose item
ids are ["1", "1"], which are not pairwise distinct. -/
theorem parseCommentsPayload_duplicate_ids_cex :
    (parseCommentsPayload trivDateEnv duplicateIdsExample).map
        (fun r => r.items.map VideoComment.id) = .ok ["1", "1"] ∧
    ¬ (["1", "1"] : List String).Nodup := by
  exact ⟨rfl, by decide⟩

/-- C9 (amended): every Comment in a successfully parsed page has a
non-empty id, but uniqueness within the page is not enforced: duplicate
ids in the raw payload are preserved. -/
theorem parseCommentsPayload_ids_nonempty (env : DateEnv) (p : Json)
    (r : ParsedCommentsPayload) (h : parseCommentsPayload env p = .ok r) :
    ∀ c ∈ r.items, c.id ≠ "" := by
  intro c hc
  obtain ⟨x, hx⟩ := parseCommentsPayload_ok_items env p r h c hc
  obtain ⟨fs, -, hid, -, hcid, -⟩ := normalizeComment_ok_some env x c hx
  rw [hcid]
  exact hid

/-- C9 witness: the non-emptiness theorem applied at the duplicate-ids
page and its first item. -/
theorem parseCommentsPayload_ids_nonempty_witness :
    ({ id := "1", text := "a", creatorHandle := "User", createdBy := "",
       createdAt := "1970-01-01T00:00:00.000Z", likes := 0,
       isBotUser := false } : VideoComment).id ≠ "" :=
  parseCommentsPayload_ids_nonempty trivDateEnv duplicateIdsExample
    { items :=
        [{ id := "1", text := "a", creatorHandle := "User", createdBy := "",
           createdAt := "1970-01-01T00:00:00.000Z", likes := 0,
           isBotUser := false },
         { id := "1", text := "b", creatorHandle := "User", createdBy := "",
           createdAt := "1970-01-01T00:00:00.000Z", likes := 0,
           isBotUser := false }]
      nextCursor := none
      hasMore := false }
    rfl
    { id := "1", text := "a", creatorHandle := "User", createdBy := "",
      createdAt := "1970-01-01T00:00:00.000Z", likes := 0,
      isBotUser := false }
    (List.mem_cons_self _ _)

/-- The hasMore example of the spec: two valid items and the flag under
comments.pagination, with no top-level hasMore or nextCursor. -/
def hasMoreExample : Json :=
  .obj [("comments", .obj
    [("items", .arr [.obj [("id", .str "1"), ("text", .str "a")],
                     .obj [("id", .str "2"), ("text", .str "b")]]),
     ("pagination", .obj [("hasMore", .bool true)])])]

/-- C4: for every successfully parsed payload, hasMore is true whenever
the explicit boolean flag resolved over the harvested metadata sources
says so, and when no explicit flag is found anywhere it defaults to
whether a non-null cursor was found; the documented example yields
hasMore = true although the flag sits under comments.pagination and no
top-level hasMore or nextCursor exists. -/
theorem parseCommentsPayload_hasMore_flag_or_cursor :
    (∀ (env : DateEnv) (p : Json) (r : ParsedCommentsPayload),
      parseCommentsPayload env p = .ok r →
      r.nextCursor = payloadNextCursor p ∧
      (payloadHasMoreFlag p = some true → r.hasMore = true) ∧
      (payloadHasMoreFlag p = none →
        r.hasMore = (payloadNextCursor p).isSome)) ∧
    (∀ env : DateEnv,
      (parseCommentsPayload env hasMoreExample).map ParsedCommentsPayload.hasMore
        = .ok true) ∧
    payloadHasMoreFlag hasMoreExample = some true ∧
    payloadNextCursor hasMoreExample = none := by
  refine ⟨?_, fun env => rfl, rfl, rfl⟩
  intro env p r h
  obtain ⟨hcur, hmore⟩ := parseCommentsPayload_ok_fields env p r h
  refine ⟨hcur, ?_, ?_⟩
  · intro hflag
    rw [hmore, hflag]
    rfl
  · intro hflag
    rw [hmore, hflag]
    rfl

/-- C4 witness: the flag branch applied at the documented example with a
concrete environment and result page. -/
theorem parseCommentsPayload_hasMore_witness :
    ({ items :=
        [{ id := "1", text := "a", creatorHandle := "User", createdBy := "",
           createdAt := "1970-01-01T00:00:00.000Z", likes := 0,
           isBotUser := false },
         { id := "2", text := "b", creatorHandle := "User", createdBy := "",
           createdAt := "1970-01-01T00:00:00.000Z", likes := 0,
           isBotUser := false }]
       nextCursor := none
       hasMore := true } : ParsedCommentsPayload).hasMore = true :=
  (parseCommentsPayload_hasMore_flag_or_cursor.1 trivDateEnv hasMoreExample
    { items :=
        [{ id := "1", text := "a", creatorHandle := "User", createdBy := "",
           createdAt := "1970-01-01T00:00:00.000Z", likes := 0,
           isBotUser := false },
         { id := "2", text := "b", creatorHandle := "User", createdBy := "",
           createdAt := "1970-01-01T00:00:00.000Z", likes := 0,
           isBotUser := false }]
      nextCursor := none
      hasMore := true }
    rfl).2.1 rfl

/-- The override condition exactly as the claim words it: the top-level
value is absent, null, or an empty/whitespace-only string while the
nested value is a non-empty string. -/
def OverrideSpec (existing : Option Json) (nv : Json) : Prop :=
  existing = none ∨ existing = some .null ∨
    (∃ s t, existing = some (.str s) ∧ jsTrim s = "" ∧
      nv = .str t ∧ jsTrim t ≠ "")

/-- C5: Entry Expansion flattens the wrapper keys in the fixed order
node, comment, value, payload, data; non-record input yields no
expansion; and per key, folding one nested wrapper record in (with the
unique keys JSON.parse guarantees) overrides the accumulated top-level
value exactly when the code's shouldOverride test fires, which holds if
and only if the claim's condition does: the existing value is absent,
null, or a blank string while the nested value is a non-blank string;
keys the wrapper does not mention are untouched. -/
theorem expandCommentEntry_override_rule :
    NESTED_WRAPPER_KEYS = ["node", "comment", "value", "payload", "data"] ∧
    (expandCommentEntry .null = none ∧
      (∀ b, expandCommentEntry (.bool b) = none) ∧
      (∀ q, expandCommentEntry (.num q) = none) ∧
      (∀ s, expandCommentEntry (.str s) = none) ∧
      (∀ xs, expandCommentEntry (.arr xs) = none)) ∧
    (∀ (fs nested : List (String × Json)) (k : String) (v : Json),
      (nested.map Prod.fst).Nodup → (k, v) ∈ nested →
      lookupField (applyNested fs nested) k =
        if shouldOverride fs k v = true then some v else lookupField fs k) ∧
    (∀ (fs nested : List (String × Json)) (k : String),
      k ∉ nested.map Prod.fst →
      lookupField (applyNested fs nested) k = lookupField fs k) ∧
    (∀ (fs : List (String × Json)) (k : String) (v : Json),
      shouldOverride fs k v = true ↔ OverrideSpec (lookupField fs k) v) := by
  refine ⟨rfl, ⟨rfl, fun b => rfl, fun q => rfl, fun s => rfl, fun xs => rfl⟩,
    fun fs nested k v hnd hmem => lookup_applyNested_mem nested fs k v hnd hmem,
    fun fs nested k hk => lookup_applyNested_not_mem nested fs k hk, ?_⟩
  intro fs k v
  unfold shouldOverride OverrideSpec
  cases hlk : lookupField fs k with
  | none => simp
  | some w =>
    cases w with
    | null => simp
    | bool b => simp
    | num q => simp
    | arr xs => simp
    | obj gs => simp
    | str s =>
      cases v with
      | str t =>
        by_cases hs : jsTrim s = ""
        · by_cases ht : jsTrim t = ""
          · simp [hs, ht]
          · simp [hs, ht]
        · simp [hs]
      | null => simp
      | bool b => simp
      | num q => simp
      | arr xs => simp
      | obj gs => simp

/-- C5 witness: the per-key characterization applied to a record whose
blank top-level text is overridden by the non-blank nested value. -/
theorem expandCommentEntry_override_rule_witness :
    lookupField (applyNested [("text", Json.str "  ")]
        [("text", Json.str "real")]) "text" =
      if shouldOverride [("text", Json.str "  ")] "text" (Json.str "real") = true
      then some (Json.str "real")
      else lookupField [("text", Json.str "  ")] "text" :=
  expandCommentEntry_override_rule.2.2.1
    [("text", Json.str "  ")] [("text", Json.str "real")]
    "text" (Json.str "real") (by decide) (List.mem_cons_self _ _)

theorem upsertVideo_no_match (l : List PublishedVideo) (v : PublishedVideo)
    (h : ∀ e ∈ l, e.id ≠ v.id) : upsertVideo l v = l ++ [v] := by
  induction l with
  | nil => rfl
  | cons x rest ih =>
    rw [upsertVideo, if_neg (h x (List.mem_cons_self _ _)),
      ih (fun e he => h e (List.mem_cons_of_mem _ he))]
    rfl

/-- C6: mergeVideos returns incoming unchanged when existing is empty;
the per-position replacement record takes every field from the incoming
entity (all fields being defined on a PublishedVideo), in particular
stats and viewerHasLiked come from the incoming entity; for the
documented shape, mergeVideos [A, B] applied to [B2, C] with B2 sharing
the id of B and C carrying a fresh id updates B in place at its original
position and appends C, leaving A untouched; and an incoming entity whose
id matches nothing is appended at the end, preserving the existing
order. -/
theorem mergeVideos_upsert_spec :
    (∀ incoming : List PublishedVideo, mergeVideos [] incoming = incoming) ∧
    (∀ old new : PublishedVideo,
      (spreadVideo old new).stats = new.stats ∧
      (spreadVideo old new).viewerHasLiked = new.viewerHasLiked ∧
      spreadVideo old new = new) ∧
    (∀ A B B2 C : PublishedVideo,
      B2.id = B.id → A.id ≠ B.id → C.id ≠ A.id → C.id ≠ B2.id →
      mergeVideos [A, B] [B2, C] = [A, B2, C]) ∧
    (∀ (x : PublishedVideo) (rest : List PublishedVideo) (v : PublishedVideo),
      (∀ e ∈ x :: rest, e.id ≠ v.id) →
      mergeVideos (x :: rest) [v] = (x :: rest) ++ [v]) := by
  refine ⟨fun incoming => rfl, fun old new => ⟨rfl, rfl, rfl⟩, ?_, ?_⟩
  · intro A B B2 C hB2 hAB hCA hCB
    show upsertVideo (upsertVideo [A, B] B2) C = [A, B2, C]
    have h1 : upsertVideo [A, B] B2 = [A, B2] := by
      rw [upsertVideo, if_neg (fun hcon => hAB (hcon.trans hB2)),
        upsertVideo, if_pos hB2.symm]
      rfl
    rw [h1, upsertVideo, if_neg (fun hcon => hCA hcon.symm),
      upsertVideo, if_neg (fun hcon => hCB hcon.symm)]
    rfl
  · intro x rest v h
    show upsertVideo (x :: rest) v = (x :: rest) ++ [v]
    exact upsertVideo_no_match (x :: rest) v h

/-- A minimal PublishedVideo used by the merge witness. -/
def sampleVideo (i u : String) : PublishedVideo :=
  { id := i, videoUrl := u, title := "Untitled Video", description := "",
    originalPrompt := none, tags := none, creatorHandle := none,
    createdBy := none, sessionId := none, createdAt := none,
    stats := { likes := .fin 0, comments := .fin 0, shares := .fin 0 },
    viewerHasLiked := false, isBotUser := false }

/-- C6 witness: the documented merge shape at concrete entities -- B is
replaced in place by the incoming entity with the same id and a different
videoUrl, C is appended, A untouched. -/
theorem mergeVideos_upsert_witness :
    mergeVideos [sampleVideo "a" "u0", sampleVideo "b" "u1"]
        [sampleVideo "b" "u2", sampleVideo "c" "u3"] =
      [sampleVideo "a" "u0", sampleVideo "b" "u2", sampleVideo "c" "u3"] :=
  mergeVideos_upsert_spec.2.2.1
    (sampleVideo "a" "u0") (sampleVideo "b" "u1")
    (sampleVideo "b" "u2") (sampleVideo "c" "u3")
    rfl (by decide) (by decide) (by decide)

/-- The C8 counterexample payload: stats carrying a negative and a
fractional number. -/
def statsCexExample : Json :=
  .obj [("id", .str "a"), ("videoUrl", .str "u"),
        ("stats", .obj [("likes", .num (-5)), ("comments", .num (mkRat 3 2))])]

/-- C8 counterexample: normalizeVideo does not floor the stats at 0 and
does not round them -- a negative likes value and a fractional comments
value pass through unchanged, refuting both the greater-or-equal-zero and
the integrality halves of the claim. -/
theorem normalizeVideo_stats_negative_cex :
    (normalizeVideo trivDateEnv statsCexExample).map
        (Option.map (fun v => (v.stats.likes, v.stats.comments))) =
      .ok (some (JsNum.fin (-5), JsNum.fin (mkRat 3 2))) ∧
    (-5 : ℚ) < 0 ∧ (mkRat 3 2 : ℚ).den ≠ 1 := by
  exact ⟨rfl, by decide, by decide⟩

/-- Sanity condition the claim implicitly assumes of the stats source:
each probed property is absent or a non-negative number. -/
def statSourceOk (s : Json) (key : String) : Prop :=
  match jsGetProp s key with
  | none => True
  | some (.num q) => 0 ≤ q
  | some _ => False

theorem videoStatField_absent (s : Json) (key : String)
    (h : jsGetProp s key = none) : videoStatField s key = .fin 0 := by
  simp [videoStatField, h, jsValueToNumber, jsOrZero]

theorem videoStatField_num (s : Json) (key : String) (q : ℚ)
    (h : jsGetProp s key = some (.num q)) : videoStatField s key = .fin q := by
  simp [videoStatField, h, jsValueToNumber, jsOrZero]

theorem videoStatField_ok (s : Json) (key : String)
    (h : statSourceOk s key) :
    ∃ a : ℚ, 0 ≤ a ∧ videoStatField s key = .fin a := by
  unfold statSourceOk at h
  cases hg : jsGetProp s key with
  | none => exact ⟨0, le_refl 0, videoStatField_absent s key hg⟩
  | some w =>
    rw [hg] at h
    cases w with
    | num q => exact ⟨q, h, videoStatField_num s key q hg⟩
    | null => cases h
    | bool b => cases h
    | str t => cases h
    | arr xs => cases h
    | obj gs => cases h

/-- C8 (amended): each stats field of an accepted video is Number(x ?? 0)
with falsy results replaced by 0 -- absent values give 0 and numeric
values pass through exactly as they are, with no flooring at 0 and no
rounding; consequently the fields are non-negative numbers exactly when
the supplied stats values are absent or non-negative, while negative or
fractional inputs are emitted unchanged. -/
theorem normalizeVideo_stats_coercion_spec :
    (∀ (env : DateEnv) (fs : List (String × Json)) (v : PublishedVideo),
      normalizeVideo env (.obj fs) = .ok (some v) → v.stats = videoStatsOf fs) ∧
    (∀ (s : Json) (key : String) (q : ℚ),
      jsGetProp s key = some (.num q) → videoStatField s key = .fin q) ∧
    (∀ (s : Json) (key : String),
      jsGetProp s key = none → videoStatField s key = .fin 0) ∧
    (∀ fs : List (String × Json),
      statSourceOk (videoStatsSource fs) "likes" →
      statSourceOk (videoStatsSource fs) "comments" →
      statSourceOk (videoStatsSource fs) "shares" →
      ∃ a b c : ℚ, 0 ≤ a ∧ 0 ≤ b ∧ 0 ≤ c ∧
        videoStatsOf fs =
          { likes := .fin a, comments := .fin b, shares := .fin c }) := by
  refine ⟨?_, videoStatField_num, videoStatField_absent, ?_⟩
  · intro env fs v h
    simp only [normalizeVideo] at h
    cases hid : videoIdOf fs with
    | none => simp [hid] at h
    | some id =>
      simp only [hid] at h
      by_cases hurl : videoUrlOf fs = ""
      · simp [hurl] at h
      · simp only [if_neg hurl] at h
        cases hca : videoCreatedAt env fs with
        | error e => simp [hca] at h
        | ok createdAt =>
          simp only [hca] at h
          injection h with h1
          injection h1 with h2
          subst h2
          rfl
  · intro fs hL hC hS
    obtain ⟨a, ha, hfa⟩ := videoStatField_ok _ _ hL
    obtain ⟨b, hb, hfb⟩ := videoStatField_ok _ _ hC
    obtain ⟨c, hc, hfc⟩ := videoStatField_ok _ _ hS
    exact ⟨a, b, c, ha, hb, hc, by rw [videoStatsOf, hfa, hfb, hfc]⟩

/-- C8 witness: the guarded non-negativity branch applied to a payload
whose only supplied stats value is the non-negative number 7. -/
theorem normalizeVideo_stats_witness :
    ∃ a b c : ℚ, 0 ≤ a ∧ 0 ≤ b ∧ 0 ≤ c ∧
      videoStatsOf [("stats", Json.obj [("likes", Json.num 7)])] =
        { likes := .fin a, comments := .fin b, shares := .fin c } :=
  normalizeVideo_stats_coercion_spec.2.2.2
    [("stats", Json.obj [("likes", Json.num 7)])]
    (show (0 : ℚ) ≤ 7 by norm_num) trivial trivial
